import Mathlib

/-!
Verification of the OpenObserve log/alert adapter
(`observability-logs-openobserve`).

Go strings are modelled as `List Char`.  Pure query/alert rendering
functions from `internal/openobserve/queries.go` and the pure parts of
the client (`queries`, `getAlertIDByName`, `DeleteAlert`,
`parseApplicationLogEntry`) and handler (`HandleCreateAlert`) are
embedded as Lean functions; network effects are factored out by taking
the already-parsed backend responses (alert listing, hit documents,
DELETE status) as explicit inputs, and by recording the requests a
function would issue.
-/

namespace OO

/-- Go strings, modelled as lists of characters. -/
abbrev Str := List Char

/-- The backslash character. -/
def bslash : Char := Char.ofNat 92

/-- The single-quote character. -/
def squote : Char := Char.ofNat 39

/-- The double-quote character. -/
def dquote : Char := Char.ofNat 34

/-- `strings.ReplaceAll` specialised to a single-character pattern
`c`, replaced by `r`: every occurrence of `c` is replaced. -/
def replaceAllChar (c : Char) (r : Str) : Str → Str
  | [] => []
  | x :: xs => if x = c then r ++ replaceAllChar c r xs else x :: replaceAllChar c r xs

/-- `escapeSQLString` from `internal/openobserve/queries.go`:
first every backslash becomes a double backslash, then every single
quote becomes a doubled single quote. -/
def escapeSQLString (value : Str) : Str :=
  replaceAllChar squote [squote, squote] (replaceAllChar bslash [bslash, bslash] value)

/-- Reversing one of the two substitutions: a left-to-right,
non-overlapping replacement of each pair `cc` by a single `c`
(`strings.ReplaceAll s cc c`). -/
def collapsePairs (c : Char) : Str → Str
  | x :: y :: rest =>
      if x = c ∧ y = c then c :: collapsePairs c rest
      else x :: collapsePairs c (y :: rest)
  | l => l

/-- Reversing the two substitutions of `escapeSQLString`, in the
opposite order: doubled quotes collapse first, then doubled
backslashes. -/
def unescapeSQLString (s : Str) : Str :=
  collapsePairs bslash (collapsePairs squote s)

/-- Character-wise view of the escaping: what one input character
expands to. -/
def escChar (c : Char) : Str :=
  if c = bslash then [bslash, bslash]
  else if c = squote then [squote, squote]
  else [c]

/-- Character-wise view of the state after quote pairs have been
collapsed again: only the backslash doubling remains. -/
def escCharB (c : Char) : Str :=
  if c = bslash then [bslash, bslash] else [c]

theorem replaceAllChar_append (c : Char) (r : Str) (l₁ l₂ : Str) :
    replaceAllChar c r (l₁ ++ l₂) = replaceAllChar c r l₁ ++ replaceAllChar c r l₂ := by
  induction l₁ with
  | nil => rfl
  | cons x xs ih =>
      simp only [List.cons_append, replaceAllChar]
      by_cases hx : x = c
      · simp [hx, ih]
      · simp [hx, ih]

theorem bslash_ne_squote : bslash ≠ squote := by
  simp [bslash, squote, Char.ofNat]

theorem escapeSQLString_cons (x : Char) (xs : Str) :
    escapeSQLString (x :: xs) = escChar x ++ escapeSQLString xs := by
  unfold escapeSQLString escChar
  simp only [replaceAllChar]
  by_cases hb : x = bslash
  · subst hb
    simp [replaceAllChar_append, replaceAllChar, bslash_ne_squote]
  · by_cases hq : x = squote
    · subst hq
      simp [replaceAllChar, hb]
    · simp [replaceAllChar, hb, hq]

theorem escapeSQLString_flatMap (s : Str) :
    escapeSQLString s = s.flatMap escChar := by
  induction s with
  | nil => rfl
  | cons x xs ih => rw [escapeSQLString_cons, List.flatMap_cons, ih]

theorem collapsePairs_cons_of_ne (c x : Char) (hx : x ≠ c) (l : Str) :
    collapsePairs c (x :: l) = x :: collapsePairs c l := by
  cases l with
  | nil => rfl
  | cons y rest =>
      show (if x = c ∧ y = c then _ else x :: collapsePairs c (y :: rest)) = _
      rw [if_neg (by intro h; exact hx h.1)]

theorem collapsePairs_pair (c : Char) (l : Str) :
    collapsePairs c (c :: c :: l) = c :: collapsePairs c l := by
  show (if c = c ∧ c = c then _ else _) = _
  rw [if_pos ⟨rfl, rfl⟩]

theorem collapsePairs_squote_flatMap (s : Str) :
    collapsePairs squote (s.flatMap escChar) = s.flatMap escCharB := by
  induction s with
  | nil => rfl
  | cons x xs ih =>
      simp only [List.flatMap_cons]
      by_cases hb : x = bslash
      · subst hb
        simp only [escChar, escCharB, if_true, eq_self_iff_true, List.cons_append,
          List.nil_append]
        rw [collapsePairs_cons_of_ne _ _ bslash_ne_squote,
            collapsePairs_cons_of_ne _ _ bslash_ne_squote, ih]
      · by_cases hq : x = squote
        · subst hq
          simp only [escChar, escCharB, if_neg hb, if_true, eq_self_iff_true,
            List.cons_append, List.nil_append]
          rw [collapsePairs_pair, ih]
        · simp only [escChar, escCharB, if_neg hb, if_neg hq, List.cons_append,
            List.nil_append, List.singleton_append]
          rw [collapsePairs_cons_of_ne _ _ hq, ih]

theorem collapsePairs_bslash_flatMap (s : Str) :
    collapsePairs bslash (s.flatMap escCharB) = s := by
  induction s with
  | nil => rfl
  | cons x xs ih =>
      simp only [List.flatMap_cons]
      by_cases hb : x = bslash
      · subst hb
        simp only [escCharB, if_true, eq_self_iff_true, List.cons_append, List.nil_append]
        rw [collapsePairs_pair, ih]
      · simp only [escCharB, if_neg hb, List.singleton_append]
        rw [collapsePairs_cons_of_ne _ _ hb, ih]

/-- C1: `escapeSQLString` doubles backslashes then doubles single
quotes, the original string is recovered by reversing the two
substitutions (collapse doubled quotes, then doubled backslashes), and
the escaping is injective — so the escaped form embeds in a
single-quoted SQL literal without losing information. -/
theorem escapeSQLString_roundtrip_injective :
    (∀ s : Str, unescapeSQLString (escapeSQLString s) = s) ∧
    Function.Injective escapeSQLString := by
  have hrt : ∀ s : Str, unescapeSQLString (escapeSQLString s) = s := by
    intro s
    rw [unescapeSQLString, escapeSQLString_flatMap, collapsePairs_squote_flatMap,
      collapsePairs_bslash_flatMap]
  exact ⟨hrt, Function.LeftInverse.injective hrt⟩

/-! ## Alert name resolution and deletion (client, `part_006`) -/

/-- One entry of the backend alert listing `{list: [{alert_id, name}]}`. -/
structure AlertListItem where
  alert_id : Str
  name : Str
deriving DecidableEq

/-- The distinct failure of alert-name resolution on an
already-parsed listing: only `alert %q not found` can arise. -/
inductive AlertLookupError where
  | notFound (name : Str)
deriving DecidableEq

/-- `Client.getAlertIDByName`, after the listing response has been
parsed: linear scan for the first exact name match, `notFound`
otherwise. -/
def getAlertIDByName : List AlertListItem → Str → Except AlertLookupError Str
  | [], name => .error (.notFound name)
  | a :: rest, name => if a.name = name then .ok a.alert_id else getAlertIDByName rest name

/-- Failures of `Client.DeleteAlert`: the wrapped lookup failure
(`failed to find alert %q: %w`) or a non-200/204 DELETE status. -/
inductive DeleteError where
  | lookupFailed (e : AlertLookupError)
  | backendStatus (code : Nat)
deriving DecidableEq

/-- Result of `Client.DeleteAlert` together with the DELETE requests
it issued (by alert ID). -/
structure DeleteOutcome where
  result : Except DeleteError Unit
  issuedDeletes : List Str

/-- `Client.DeleteAlert` over a parsed listing and a backend that
answers a DELETE on an alert ID with a status code: resolve the name
first; only on success issue the DELETE, accepting 200 or 204. -/
def deleteAlert (listing : List AlertListItem) (deleteStatus : Str → Nat)
    (alertName : Str) : DeleteOutcome :=
  match getAlertIDByName listing alertName with
  | .error e => { result := .error (.lookupFailed e), issuedDeletes := [] }
  | .ok id =>
      { result :=
          if deleteStatus id = 200 ∨ deleteStatus id = 204 then .ok ()
          else .error (.backendStatus (deleteStatus id))
        issuedDeletes := [id] }

theorem getAlertIDByName_notFound (listing : List AlertListItem) (name : Str)
    (h : ∀ a ∈ listing, a.name ≠ name) :
    getAlertIDByName listing name = .error (.notFound name) := by
  induction listing with
  | nil => rfl
  | cons x rest ih =>
      have hx : x.name ≠ name := h x (by simp)
      simp only [getAlertIDByName, if_neg hx]
      exact ih fun a ha => h a (by simp [ha])

theorem getAlertIDByName_ok_mem (listing : List AlertListItem) (name id : Str)
    (h : getAlertIDByName listing name = .ok id) :
    ∃ a, a ∈ listing ∧ a.name = name ∧ a.alert_id = id := by
  induction listing with
  | nil => exact absurd h (by simp [getAlertIDByName])
  | cons x rest ih =>
      by_cases hx : x.name = name
      · simp only [getAlertIDByName, if_pos hx, Except.ok.injEq] at h
        exact ⟨x, by simp, hx, h⟩
      · simp only [getAlertIDByName, if_neg hx] at h
        obtain ⟨a, ha, h1, h2⟩ := ih h
        exact ⟨a, by simp [ha], h1, h2⟩

/-- C2: alert deletion is two-phase.  If the queried name is absent
from the listing, name resolution fails with the distinct `notFound`
outcome, `DeleteAlert` returns that failure wrapped, and no DELETE
request is issued; conversely any issued DELETE targets an ID that a
successful exact name match in the listing resolved. -/
theorem deleteAlert_two_phase (listing : List AlertListItem) (deleteStatus : Str → Nat)
    (alertName : Str) :
    ((∀ a ∈ listing, a.name ≠ alertName) →
      getAlertIDByName listing alertName = .error (.notFound alertName) ∧
      deleteAlert listing deleteStatus alertName =
        { result := .error (.lookupFailed (.notFound alertName)), issuedDeletes := [] }) ∧
    (∀ id, id ∈ (deleteAlert listing deleteStatus alertName).issuedDeletes →
      getAlertIDByName listing alertName = .ok id ∧
      ∃ a, a ∈ listing ∧ a.name = alertName ∧ a.alert_id = id) := by
  constructor
  · intro h
    have hnf := getAlertIDByName_notFound listing alertName h
    exact ⟨hnf, by simp [deleteAlert, hnf]⟩
  · intro id hid
    cases heq : getAlertIDByName listing alertName with
    | error e => simp [deleteAlert, heq] at hid
    | ok rid =>
        simp only [deleteAlert, heq, List.mem_singleton] at hid
        subst hid
        exact ⟨rfl, getAlertIDByName_ok_mem _ _ _ heq⟩

/-- C2 witness: with a one-alert listing whose name differs from the
queried one, resolution reports `notFound` and no DELETE is issued. -/
theorem deleteAlert_two_phase_witness :
    getAlertIDByName [{ alert_id := [Char.ofNat 105], name := [Char.ofNat 97] }]
        [Char.ofNat 98] =
      .error (.notFound [Char.ofNat 98]) ∧
    deleteAlert [{ alert_id := [Char.ofNat 105], name := [Char.ofNat 97] }]
        (fun _ => 200) [Char.ofNat 98] =
      { result := .error (.lookupFailed (.notFound [Char.ofNat 98])), issuedDeletes := [] } :=
  (deleteAlert_two_phase [{ alert_id := [Char.ofNat 105], name := [Char.ofNat 97] }]
    (fun _ => 200) [Char.ofNat 98]).1 (by decide)

/-- C9: name resolution returns the ID of the first alert, in listing
order, whose name exactly equals the queried name: success is
equivalent to a split of the listing where everything before the hit
fails exact equality. -/
theorem getAlertIDByName_first_exact_match (listing : List AlertListItem) (name id : Str) :
    getAlertIDByName listing name = .ok id ↔
    ∃ pre a post, listing = pre ++ a :: post ∧ a.name = name ∧ a.alert_id = id ∧
      ∀ b ∈ pre, b.name ≠ name := by
  induction listing with
  | nil =>
      constructor
      · intro h
        exact absurd h (by simp [getAlertIDByName])
      · rintro ⟨pre, a, post, heq, -⟩
        exact absurd heq (by simp)
  | cons x rest ih =>
      by_cases hx : x.name = name
      · simp only [getAlertIDByName, if_pos hx, Except.ok.injEq]
        constructor
        · intro h
          exact ⟨[], x, rest, rfl, hx, h, by simp⟩
        · rintro ⟨pre, a, post, heq, ha, haid, hpre⟩
          cases pre with
          | nil =>
              simp only [List.nil_append, List.cons.injEq] at heq
              rw [← haid, ← heq.1]
          | cons p ps =>
              simp only [List.cons_append, List.cons.injEq] at heq
              exact absurd (heq.1 ▸ hx) (hpre p (by simp))
      · simp only [getAlertIDByName, if_neg hx]
        rw [ih]
        constructor
        · rintro ⟨pre, a, post, heq, ha, haid, hpre⟩
          refine ⟨x :: pre, a, post, by simp [heq], ha, haid, ?_⟩
          intro b hb
          rcases List.mem_cons.mp hb with hb | hb
          · rw [hb]; exact hx
          · exact hpre b hb
        · rintro ⟨pre, a, post, heq, ha, haid, hpre⟩
          cases pre with
          | nil =>
              simp only [List.nil_append, List.cons.injEq] at heq
              exact absurd (heq.1 ▸ ha) hx
          | cons p ps =>
              simp only [List.cons_append, List.cons.injEq] at heq
              exact ⟨ps, a, post, heq.2, ha, haid, fun b hb => hpre b (by simp [hb])⟩

/-- C9 witness: in a listing with two alerts named `a`, the first ID
is resolved. -/
theorem getAlertIDByName_first_exact_match_witness :
    getAlertIDByName
      [{ alert_id := [Char.ofNat 49], name := [Char.ofNat 97] },
       { alert_id := [Char.ofNat 50], name := [Char.ofNat 97] }]
      [Char.ofNat 97] = .ok [Char.ofNat 49] :=
  (getAlertIDByName_first_exact_match
    [{ alert_id := [Char.ofNat 49], name := [Char.ofNat 97] },
     { alert_id := [Char.ofNat 50], name := [Char.ofNat 97] }]
    [Char.ofNat 97] [Char.ofNat 49]).mpr
    ⟨[], { alert_id := [Char.ofNat 49], name := [Char.ofNat 97] },
      [{ alert_id := [Char.ofNat 50], name := [Char.ofNat 97] }], rfl, rfl, rfl, by simp⟩

/-! ## Hit-document normalization (`parseApplicationLogEntry`) -/

/-- A JSON value as produced by unmarshalling into
`map[string]interface{}`: strings, numbers (JSON numbers come back as
`float64`; the ones relevant here are integral microsecond epochs),
booleans, null, nested objects and arrays. -/
inductive JValue where
  | jstr (s : Str)
  | jnum (n : Int)
  | jbool (b : Bool)
  | jnull
  | jobj (fields : List (Str × JValue))
  | jarr (elems : List JValue)

/-- Lookup in a hit document (Go map: keys are unique, the assoc list
carries them in some order). -/
def jlookup (m : List (Str × JValue)) (k : Str) : Option JValue :=
  match m with
  | [] => none
  | (k2, v) :: rest => if k2 = k then some v else jlookup rest k

/-- The Go type assertion `source[k].(string)`. -/
def getString (m : List (Str × JValue)) (k : Str) : Option Str :=
  match jlookup m k with
  | some (.jstr s) => some s
  | _ => none

def kLog : Str := "log".data

def kLogLevel : Str := "logLevel".data

def kComponentUid : Str := "kubernetes_labels_openchoreo_dev_component_uid".data

def kEnvironmentUid : Str := "kubernetes_labels_openchoreo_dev_environment_uid".data

def kProjectUid : Str := "kubernetes_labels_openchoreo_dev_project_uid".data

def kNamespaceName : Str := "kubernetes_namespace_name".data

def kPodID : Str := "kubernetes_pod_id".data

def kContainerName : Str := "kubernetes_container_name".data

def kLabels : Str := "labels".data

def kTimestampField : Str := "_timestamp".data

/-- The normalized log record (`ComponentLogsEntry`); the timestamp is
kept as the microsecond epoch value passed to `time.UnixMicro`. -/
structure ComponentLogsEntry where
  timestampMicro : Int
  log : Str
  logLevel : Str
  componentID : Str
  environmentID : Str
  projectID : Str
  namespaceName : Str
  podID : Str
  containerName : Str
  labels : List (Str × Str)
deriving DecidableEq

/-- Timestamp extraction in `Client.GetComponentLogs`: `_timestamp` as
a number, defaulting to `0`. -/
def extractTimestamp (hit : List (Str × JValue)) : Int :=
  match jlookup hit kTimestampField with
  | some (.jnum n) => n
  | _ => 0

/-- `Client.parseApplicationLogEntry`: every field extraction is an
independent type assertion defaulting to the zero value; only
string-valued entries of the nested `labels` object are copied. -/
def parseApplicationLogEntry (timestamp : Int) (source : List (Str × JValue)) :
    ComponentLogsEntry :=
  { timestampMicro := timestamp
    log := (getString source kLog).getD []
    logLevel := (getString source kLogLevel).getD []
    componentID := (getString source kComponentUid).getD []
    environmentID := (getString source kEnvironmentUid).getD []
    projectID := (getString source kProjectUid).getD []
    namespaceName := (getString source kNamespaceName).getD []
    podID := (getString source kPodID).getD []
    containerName := (getString source kContainerName).getD []
    labels :=
      match jlookup source kLabels with
      | some (.jobj fields) =>
          fields.filterMap fun kv =>
            match kv.2 with
            | .jstr s => some (kv.1, s)
            | _ => none
      | _ => [] }

/-- C3: normalization is total and tolerant.  For every hit document,
each string field defaults to the empty string when the key is missing
or not a string, the timestamp defaults to microsecond 0 when
`_timestamp` is missing or non-numeric, the label map holds only the
string-valued entries of the nested `labels` object, and the document
missing every field yields the all-defaults entry — no error is ever
produced (the function is total by construction). -/
theorem parseApplicationLogEntry_total (hit : List (Str × JValue)) :
    (getString hit kLog = none →
      (parseApplicationLogEntry (extractTimestamp hit) hit).log = []) ∧
    (getString hit kLogLevel = none →
      (parseApplicationLogEntry (extractTimestamp hit) hit).logLevel = []) ∧
    (getString hit kComponentUid = none →
      (parseApplicationLogEntry (extractTimestamp hit) hit).componentID = []) ∧
    (getString hit kEnvironmentUid = none →
      (parseApplicationLogEntry (extractTimestamp hit) hit).environmentID = []) ∧
    (getString hit kProjectUid = none →
      (parseApplicationLogEntry (extractTimestamp hit) hit).projectID = []) ∧
    (getString hit kNamespaceName = none →
      (parseApplicationLogEntry (extractTimestamp hit) hit).namespaceName = []) ∧
    (getString hit kPodID = none →
      (parseApplicationLogEntry (extractTimestamp hit) hit).podID = []) ∧
    (getString hit kContainerName = none →
      (parseApplicationLogEntry (extractTimestamp hit) hit).containerName = []) ∧
    ((∀ n : Int, jlookup hit kTimestampField ≠ some (.jnum n)) →
      (parseApplicationLogEntry (extractTimestamp hit) hit).timestampMicro = 0) ∧
    (∀ k v, (k, v) ∈ (parseApplicationLogEntry (extractTimestamp hit) hit).labels →
      ∃ fields, jlookup hit kLabels = some (.jobj fields) ∧ (k, JValue.jstr v) ∈ fields) ∧
    parseApplicationLogEntry (extractTimestamp ([] : List (Str × JValue))) [] =
      { timestampMicro := 0, log := [], logLevel := [], componentID := [],
        environmentID := [], projectID := [], namespaceName := [], podID := [],
        containerName := [], labels := [] } := by
  refine ⟨?_, ?_, ?_, ?_, ?_, ?_, ?_, ?_, ?_, ?_, rfl⟩
  · intro h; show (getString hit kLog).getD [] = []; rw [h]; rfl
  · intro h; show (getString hit kLogLevel).getD [] = []; rw [h]; rfl
  · intro h; show (getString hit kComponentUid).getD [] = []; rw [h]; rfl
  · intro h; show (getString hit kEnvironmentUid).getD [] = []; rw [h]; rfl
  · intro h; show (getString hit kProjectUid).getD [] = []; rw [h]; rfl
  · intro h; show (getString hit kNamespaceName).getD [] = []; rw [h]; rfl
  · intro h; show (getString hit kPodID).getD [] = []; rw [h]; rfl
  · intro h; show (getString hit kContainerName).getD [] = []; rw [h]; rfl
  · intro h
    show extractTimestamp hit = 0
    unfold extractTimestamp
    cases heq : jlookup hit kTimestampField with
    | none => rfl
    | some v =>
        cases v with
        | jnum n => exact absurd heq (h n)
        | jstr s => rfl
        | jbool b => rfl
        | jnull => rfl
        | jobj fields => rfl
        | jarr elems => rfl
  · intro k v hm
    simp only [parseApplicationLogEntry] at hm
    cases heq : jlookup hit kLabels with
    | none => rw [heq] at hm; simp at hm
    | some jv =>
        rw [heq] at hm
        cases jv with
        | jobj fields =>
            simp only [List.mem_filterMap] at hm
            obtain ⟨⟨k2, v2⟩, hmem, hf⟩ := hm
            cases v2 with
            | jstr s =>
                simp only [Option.some.injEq, Prod.mk.injEq] at hf
                exact ⟨fields, rfl, by rw [← hf.1, ← hf.2]; exact hmem⟩
            | jnum n => simp at hf
            | jbool b => simp at hf
            | jnull => simp at hf
            | jobj f2 => simp at hf
            | jarr e2 => simp at hf
        | jstr s => simp at hm
        | jnum n => simp at hm
        | jbool b => simp at hm
        | jnull => simp at hm
        | jarr e2 => simp at hm

/-- C3 witness: the empty hit document normalizes with empty log text
and epoch timestamp. -/
theorem parseApplicationLogEntry_total_witness :
    (parseApplicationLogEntry (extractTimestamp ([] : List (Str × JValue))) []).log = [] ∧
    (parseApplicationLogEntry (extractTimestamp ([] : List (Str × JValue)))
        []).timestampMicro = 0 :=
  ⟨(parseApplicationLogEntry_total []).1 rfl,
   (parseApplicationLogEntry_total []).2.2.2.2.2.2.2.2.1 (fun n h => by simp [jlookup] at h)⟩

/-! ## Query builder (`generateComponentLogsQuery`, `generateAlertConfig`) -/

/-- `strings.Join` with a separator. -/
def joinSep (sep : Str) : List Str → Str
  | [] => []
  | [x] => x
  | x :: y :: xs => x ++ sep ++ joinSep sep (y :: xs)

def orSep : Str := " OR ".data

def andSep : Str := " AND ".data

def lparenS : Str := "(".data

def rparenS : Str := ")".data

/-- `ComponentLogsParams`; the two `time.Time` bounds are carried as
the microsecond epoch values their `UnixMicro()` yields. -/
structure ComponentLogsParams where
  componentIDs : List Str
  environmentID : Str
  projectID : Str
  startTimeMicro : Int
  endTimeMicro : Int
  searchPhrase : Str
  logLevels : List Str
  limit : Int
  sortOrder : Str
deriving DecidableEq

def projectCondition (p : ComponentLogsParams) : Str :=
  "kubernetes_labels_openchoreo_dev_project_uid = ".data ++ [squote] ++
    escapeSQLString p.projectID ++ [squote]

def environmentCondition (p : ComponentLogsParams) : Str :=
  "kubernetes_labels_openchoreo_dev_environment_uid = ".data ++ [squote] ++
    escapeSQLString p.environmentID ++ [squote]

def componentCondition (id : Str) : Str :=
  "kubernetes_labels_openchoreo_dev_component_uid = ".data ++ [squote] ++
    escapeSQLString id ++ [squote]

/-- The parenthesised OR-group over component-id equalities. -/
def componentGroup (ids : List Str) : Str :=
  lparenS ++ joinSep orSep (ids.map componentCondition) ++ rparenS

def searchCondition (p : ComponentLogsParams) : Str :=
  "log LIKE ".data ++ [squote] ++ "%".data ++ escapeSQLString p.searchPhrase ++
    "%".data ++ [squote]

def logLevelCondition (level : Str) : Str :=
  "logLevel = ".data ++ [squote] ++ escapeSQLString level ++ [squote]

/-- The parenthesised OR-group over log-level equalities. -/
def logLevelGroup (levels : List Str) : Str :=
  lparenS ++ joinSep orSep (levels.map logLevelCondition) ++ rparenS

/-- The two mandatory conditions `generateComponentLogsQuery` starts
from. -/
def conditionsBase (p : ComponentLogsParams) : List Str :=
  [projectCondition p, environmentCondition p]

/-- After the optional component-IDs filter (`len(ComponentIDs) > 0`). -/
def conditionsWithComponents (p : ComponentLogsParams) : List Str :=
  if p.componentIDs.length > 0 then conditionsBase p ++ [componentGroup p.componentIDs]
  else conditionsBase p

/-- After the optional search-phrase filter (`SearchPhrase != ""`). -/
def conditionsWithSearch (p : ComponentLogsParams) : List Str :=
  if p.searchPhrase ≠ [] then conditionsWithComponents p ++ [searchCondition p]
  else conditionsWithComponents p

/-- After the optional log-levels filter (`len(LogLevels) > 0`): the
full conditions list ANDed into the WHERE clause. -/
def conditionsFor (p : ComponentLogsParams) : List Str :=
  if p.logLevels.length > 0 then conditionsWithSearch p ++ [logLevelGroup p.logLevels]
  else conditionsWithSearch p

/-- The appended sort clause: the whitelist admits exactly `"ASC"` and
`"asc"`; everything else falls back to descending. -/
def sortSuffix (sortOrder : Str) : Str :=
  if sortOrder = "ASC".data ∨ sortOrder = "asc".data then " ORDER BY _timestamp ASC".data
  else " ORDER BY _timestamp DESC".data

/-- The rendered SQL text of `generateComponentLogsQuery`. -/
def buildSQL (p : ComponentLogsParams) (stream : Str) : Str :=
  "SELECT * FROM ".data ++ stream ++ " WHERE ".data ++
    joinSep andSep (conditionsFor p) ++ sortSuffix p.sortOrder

/-- Default limit when the requested one is not positive. -/
def effectiveLimit (limit : Int) : Int :=
  if limit ≤ 0 then 100 else limit

/-- The query document `{query: {sql, start_time, end_time, from,
size}, timeout}`; `from` is spelled `qfrom`. -/
structure QueryDocument where
  sql : Str
  start_time : Int
  end_time : Int
  qfrom : Int
  size : Int
  timeout : Int
deriving DecidableEq

/-- `generateComponentLogsQuery` up to JSON marshalling: the document
it renders. -/
def generateComponentLogsQuery (p : ComponentLogsParams) (stream : Str) : QueryDocument :=
  { sql := buildSQL p stream
    start_time := p.startTimeMicro
    end_time := p.endTimeMicro
    qfrom := 0
    size := effectiveLimit p.limit
    timeout := 0 }

/-- C4: with an empty component-id list the rendered filter has no
component-id clause — only the project and environment equalities plus
the optional search-phrase and log-level conditions — while a
non-empty list ANDs in the parenthesised OR-group; the SQL of the
rendered document joins exactly these conditions. -/
theorem generateComponentLogsQuery_componentIDs (p : ComponentLogsParams) (stream : Str) :
    (p.componentIDs = [] →
      conditionsFor p =
        [projectCondition p, environmentCondition p] ++
          (if p.searchPhrase ≠ [] then [searchCondition p] else []) ++
          (if p.logLevels.length > 0 then [logLevelGroup p.logLevels] else [])) ∧
    (p.componentIDs ≠ [] →
      conditionsFor p =
        [projectCondition p, environmentCondition p, componentGroup p.componentIDs] ++
          (if p.searchPhrase ≠ [] then [searchCondition p] else []) ++
          (if p.logLevels.length > 0 then [logLevelGroup p.logLevels] else [])) ∧
    (generateComponentLogsQuery p stream).sql =
      "SELECT * FROM ".data ++ stream ++ " WHERE ".data ++
        joinSep andSep (conditionsFor p) ++ sortSuffix p.sortOrder := by
  refine ⟨?_, ?_, rfl⟩
  · intro h
    have hc : ¬p.componentIDs.length > 0 := by simp [h]
    simp only [conditionsFor, conditionsWithSearch, conditionsWithComponents, if_neg hc]
    split_ifs <;> simp [conditionsBase]
  · intro h
    have hc : p.componentIDs.length > 0 := List.length_pos.mpr h
    simp only [conditionsFor, conditionsWithSearch, conditionsWithComponents, if_pos hc]
    split_ifs <;> simp [conditionsBase]

def emptyComponentsParams : ComponentLogsParams :=
  { componentIDs := [], environmentID := "e1".data, projectID := "p1".data,
    startTimeMicro := 0, endTimeMicro := 0, searchPhrase := [], logLevels := [],
    limit := 0, sortOrder := [] }

/-- C4 witness: a request with no component IDs, no search phrase and
no levels renders only the two mandatory conditions. -/
theorem generateComponentLogsQuery_componentIDs_witness :
    conditionsFor emptyComponentsParams =
      [projectCondition emptyComponentsParams, environmentCondition emptyComponentsParams] ++
        (if emptyComponentsParams.searchPhrase ≠ [] then [searchCondition emptyComponentsParams]
          else []) ++
        (if emptyComponentsParams.logLevels.length > 0
          then [logLevelGroup emptyComponentsParams.logLevels] else []) :=
  (generateComponentLogsQuery_componentIDs emptyComponentsParams []).1 rfl

def mixedCaseAsc : Str := "Asc".data

/-- C5 counterexample: `"Asc"` is a case-insensitive match of `"asc"`,
yet the builder appends the descending clause — so ascending is not
chosen on every case-insensitive match. -/
theorem sortSuffix_not_case_insensitive :
    mixedCaseAsc.map Char.toLower = "asc".data ∧
    sortSuffix mixedCaseAsc = " ORDER BY _timestamp DESC".data := by
  constructor
  · decide
  · decide

/-- C5 (amended): the builder appends `ORDER BY _timestamp ASC`
exactly for the two whitelisted spellings `"ASC"` and `"asc"`, and
`ORDER BY _timestamp DESC` for every other input (including `"desc"`,
`""`, `"banana"` and `"Asc"`); the clause is the suffix of the
rendered SQL. -/
theorem sortSuffix_exact_whitelist (p : ComponentLogsParams) (stream : Str) :
    (∃ pre, (generateComponentLogsQuery p stream).sql = pre ++ sortSuffix p.sortOrder) ∧
    (sortSuffix p.sortOrder = " ORDER BY _timestamp ASC".data ↔
      p.sortOrder = "ASC".data ∨ p.sortOrder = "asc".data) ∧
    (¬(p.sortOrder = "ASC".data ∨ p.sortOrder = "asc".data) →
      sortSuffix p.sortOrder = " ORDER BY _timestamp DESC".data) := by
  refine ⟨⟨"SELECT * FROM ".data ++ stream ++ " WHERE ".data ++
    joinSep andSep (conditionsFor p), rfl⟩, ?_, ?_⟩
  · unfold sortSuffix
    split_ifs with h
    · simp [h]
    · simp only [h, iff_false]
      decide
  · intro h
    rw [sortSuffix, if_neg h]

def bananaSortParams : ComponentLogsParams :=
  { componentIDs := [], environmentID := [], projectID := [],
    startTimeMicro := 0, endTimeMicro := 0, searchPhrase := [], logLevels := [],
    limit := 0, sortOrder := "banana".data }

/-- C5 witness: the unrecognized input `"banana"` falls back to the
descending clause. -/
theorem sortSuffix_exact_whitelist_witness :
    sortSuffix bananaSortParams.sortOrder = " ORDER BY _timestamp DESC".data :=
  (sortSuffix_exact_whitelist bananaSortParams []).2.2 (by decide)

/-- C6: the `size` field of the rendered document is 100 whenever the
requested limit is zero or negative, and the requested limit itself
whenever it is positive. -/
theorem generateComponentLogsQuery_limit (p : ComponentLogsParams) (stream : Str) :
    (p.limit ≤ 0 → (generateComponentLogsQuery p stream).size = 100) ∧
    (0 < p.limit → (generateComponentLogsQuery p stream).size = p.limit) := by
  constructor
  · intro h
    show effectiveLimit p.limit = 100
    rw [effectiveLimit, if_pos h]
  · intro h
    show effectiveLimit p.limit = p.limit
    rw [effectiveLimit, if_neg (not_le.mpr h)]

def limitParams (n : Int) : ComponentLogsParams :=
  { componentIDs := [], environmentID := [], projectID := [],
    startTimeMicro := 0, endTimeMicro := 0, searchPhrase := [], logLevels := [],
    limit := n, sortOrder := [] }

/-- C6 witness: limits 0 and -5 normalize to 100; limit 37 stays 37. -/
theorem generateComponentLogsQuery_limit_witness :
    (generateComponentLogsQuery (limitParams 0) []).size = 100 ∧
    (generateComponentLogsQuery (limitParams (-5)) []).size = 100 ∧
    (generateComponentLogsQuery (limitParams 37) []).size = 37 :=
  ⟨(generateComponentLogsQuery_limit (limitParams 0) []).1 (by decide),
   (generateComponentLogsQuery_limit (limitParams (-5)) []).1 (by decide),
   (generateComponentLogsQuery_limit (limitParams 37) []).2 (by decide)⟩

/-- C10: pagination and timeout are fixed — `from` is always 0,
`timeout` is always 0, and the time range is exactly the request's
microsecond epoch bounds. -/
theorem generateComponentLogsQuery_pagination (p : ComponentLogsParams) (stream : Str) :
    (generateComponentLogsQuery p stream).qfrom = 0 ∧
    (generateComponentLogsQuery p stream).timeout = 0 ∧
    (generateComponentLogsQuery p stream).start_time = p.startTimeMicro ∧
    (generateComponentLogsQuery p stream).end_time = p.endTimeMicro :=
  ⟨rfl, rfl, rfl, rfl⟩

/-! ## Alert configuration rendering and the create-alert handler -/

/-- `LogAlertParams`. -/
structure LogAlertParams where
  name : Str
  searchPattern : Str
  thresholdValue : Int
  duration : Int
  frequency : Int
deriving DecidableEq

/-- The `condition` object of the rendered alert document. -/
structure AlertCondition where
  column : Str
  operator : Str
  value : Int
deriving DecidableEq

/-- The alert document rendered by `generateAlertConfig`. -/
structure AlertConfig where
  name : Str
  stream_name : Str
  query : Str
  condition : AlertCondition
  duration : Int
  frequency : Int
  is_realtime : Str
  destinations : List Str
  alert_type : Str
deriving DecidableEq

/-- `generateAlertConfig` up to JSON marshalling.  The query is the
`fmt.Sprintf` with `match_count`, the double-quoted stream name and
the escaped search pattern substituted (the first two literal chunks
are flattened into the format text). -/
def generateAlertConfig (params : LogAlertParams) (streamName : Str) : AlertConfig :=
  { name := params.name
    stream_name := streamName
    query :=
      "SELECT count(*) as match_count FROM ".data ++ [dquote] ++ streamName ++
        [dquote] ++ " WHERE str_match(log, ".data ++ [squote] ++
        escapeSQLString params.searchPattern ++ [squote] ++ rparenS
    condition :=
      { column := "match_count".data, operator := ">".data, value := params.thresholdValue }
    duration := params.duration
    frequency := params.frequency
    is_realtime := "no".data
    destinations := ["openchoreo_alerts".data]
    alert_type := "scheduled".data }

/-- C7: every rendered alert document carries a count-based condition
(column `match_count`, comparison `>`, the definition's threshold),
the definition's duration and frequency, the fixed non-realtime flag,
the single fixed destination `openchoreo_alerts` and the `scheduled`
alert type, with the query built from the substring-match primitive
over the escaped pattern. -/
theorem generateAlertConfig_fixed_fields (params : LogAlertParams) (streamName : Str) :
    (generateAlertConfig params streamName).condition =
      { column := "match_count".data, operator := ">".data,
        value := params.thresholdValue } ∧
    (generateAlertConfig params streamName).duration = params.duration ∧
    (generateAlertConfig params streamName).frequency = params.frequency ∧
    (generateAlertConfig params streamName).is_realtime = "no".data ∧
    (generateAlertConfig params streamName).destinations = ["openchoreo_alerts".data] ∧
    (generateAlertConfig params streamName).alert_type = "scheduled".data ∧
    (generateAlertConfig params streamName).query =
      "SELECT count(*) as match_count FROM ".data ++ [dquote] ++ streamName ++
        [dquote] ++ " WHERE str_match(log, ".data ++ [squote] ++
        escapeSQLString params.searchPattern ++ [squote] ++ rparenS :=
  ⟨rfl, rfl, rfl, rfl, rfl, rfl, rfl⟩

/-- Handler-level failures surfaced as HTTP 400. -/
inductive HandlerError where
  | badRequest (msg : Str)
deriving DecidableEq

def msgRuleNameRequired : Str := "Rule name is required".data

def msgInvalidBody : Str := "Invalid request body".data

/-- The pure core of `LogsHandler.HandleCreateAlert`: reject an empty
path rule name, reject an undecodable body, and otherwise overwrite
the decoded body's name with the path-supplied rule name. -/
def handleCreateAlertParams (ruleName : Str) (body : Option LogAlertParams) :
    Except HandlerError LogAlertParams :=
  if ruleName = [] then .error (.badRequest msgRuleNameRequired)
  else
    match body with
    | none => .error (.badRequest msgInvalidBody)
    | some p => .ok { p with name := ruleName }

/-- C8: for a non-empty path rule name the handler forwards alert
parameters whose name is the path name, overriding any body name, so
the rendered document's `name` is the path name and its query embeds
the escaped body search pattern. -/
theorem handleCreateAlert_name_overrides (ruleName : Str) (body : LogAlertParams)
    (stream : Str) (h : ruleName ≠ []) :
    ∃ p, handleCreateAlertParams ruleName (some body) = .ok p ∧
      p.name = ruleName ∧
      (generateAlertConfig p stream).name = ruleName ∧
      (generateAlertConfig p stream).query =
        "SELECT count(*) as match_count FROM ".data ++ [dquote] ++ stream ++
          [dquote] ++ " WHERE str_match(log, ".data ++ [squote] ++
          escapeSQLString body.searchPattern ++ [squote] ++ rparenS := by
  refine ⟨{ body with name := ruleName }, ?_, rfl, rfl, rfl⟩
  rw [handleCreateAlertParams, if_neg h]

def ruleHighErrorRate : Str := "high-error-rate".data

def bodyERROR : LogAlertParams :=
  { name := [], searchPattern := "ERROR".data, thresholdValue := 10,
    duration := 5, frequency := 1 }

/-- C8 witness: creating at path name `high-error-rate` with body
pattern `ERROR` renders a document named `high-error-rate` whose query
embeds the escaped literal `ERROR`. -/
theorem handleCreateAlert_name_overrides_witness :
    ∃ p, handleCreateAlertParams ruleHighErrorRate (some bodyERROR) = .ok p ∧
      p.name = ruleHighErrorRate ∧
      (generateAlertConfig p ("default".data)).name = ruleHighErrorRate ∧
      (generateAlertConfig p ("default".data)).query =
        "SELECT count(*) as match_count FROM ".data ++ [dquote] ++ "default".data ++
          [dquote] ++ " WHERE str_match(log, ".data ++ [squote] ++
          escapeSQLString bodyERROR.searchPattern ++ [squote] ++ rparenS :=
  handleCreateAlert_name_overrides ruleHighErrorRate bodyERROR ("default".data) (by decide)

/-- C1 witness: a concrete string holding a quote and a backslash
survives the escape/unescape round trip. -/
theorem escapeSQLString_roundtrip_injective_witness :
    unescapeSQLString (escapeSQLString [squote, bslash, Char.ofNat 97]) =
      [squote, bslash, Char.ofNat 97] :=
  escapeSQLString_roundtrip_injective.1 [squote, bslash, Char.ofNat 97]

end OO
